import Mathlib

/-!
# A shallow embedding of the `raytracer` core (mtXTJocj/raytracer)

Source files are embedded from `src/src/*.rs`.  The scalar type `FLOAT`
(`f64` in the source) is modelled by `ℚ`; floating-point rounding is not
modelled, and the transcendental operations (`sqrt`, `tan`, `powf`) are
modelled by executable rational approximations.  None of the theorems in
this development depend on the values those approximations produce: they
are only needed so that the surrounding definitions stay executable.

The source repository mixes several historical drafts of the same modules
(the `Shape` trait exists both in a self-transforming version, `shape.rs`,
and in a `Node`-based version used by `group.rs`/`plane.rs`/`node.rs`).
The embedding follows the `Node`-based scene graph: a `Node` pairs a
`Transform` with a shape variant, `Node.intersect` transforms the ray by
the stored inverse and delegates to the shape's `local_intersect`, exactly
as both drafts do line for line.
-/

/-- Source: `pub type FLOAT = f64;` (lib.rs) — modelled by `ℚ`. -/
abbrev FLOAT := ℚ

/-- Source: `const EPSILON: FLOAT = 0.00001;` (lib.rs) -/
def EPSILON : FLOAT := 1 / 100000

/-- Source: `fn approx_eq(a: FLOAT, b: FLOAT) -> bool { (a - b).abs() < EPSILON }` (lib.rs) -/
def approx_eq (a b : FLOAT) : Bool := |a - b| < EPSILON

/-- Source: `std::f32::MAX as FLOAT` — the sentinel initial value of the running
minimum in `hit` (intersection.rs, line 20).  `f32::MAX = 2^128 - 2^104`
exactly. -/
def f32MAX : FLOAT := 2 ^ 128 - 2 ^ 104

/-- Executable rational model of `f64::sqrt`.  No theorem below depends on
its values; it only keeps `normalize`/`magnitude`/`schlick` executable. -/
def sqrtFloat (q : FLOAT) : FLOAT :=
  if q ≤ 0 then 0 else (Nat.sqrt (q.num.toNat * q.den) : FLOAT) / (q.den : FLOAT)

/-- Executable rational model of `f32::tan` (used only by `Camera::new`'s
precomputation; no theorem below depends on its values). -/
def tanFloat (q : FLOAT) : FLOAT := q + q ^ 3 / 3 + 2 * q ^ 5 / 15

/-- Executable rational model of `f64::powf` (used only by
`Material::lighting` for the shininess exponent; exact for integral
exponents, which is the only way the program uses it; no theorem below
depends on its values). -/
def powfFloat (b e : FLOAT) : FLOAT := b ^ e.num

/-! ## color.rs -/

/-- Source: `pub struct Color { red, green, blue: FLOAT }` (color.rs) -/
structure Color where
  red : FLOAT
  green : FLOAT
  blue : FLOAT
deriving DecidableEq, Repr

namespace Color

/-- Source: `Color::BLACK` (color.rs) -/
def BLACK : Color := ⟨0, 0, 0⟩

/-- Source: `Color::WHITE` (color.rs) -/
def WHITE : Color := ⟨1, 1, 1⟩

/-- Source: `impl Add<&Color> for &Color` (color.rs) -/
def add (a b : Color) : Color := ⟨a.red + b.red, a.green + b.green, a.blue + b.blue⟩

/-- Source: `impl Mul<FLOAT> for &Color` (color.rs) -/
def scale (a : Color) (s : FLOAT) : Color := ⟨a.red * s, a.green * s, a.blue * s⟩

/-- Source: `impl Mul<&Color> for FLOAT` (color.rs) -/
def scaleLeft (s : FLOAT) (a : Color) : Color := ⟨s * a.red, s * a.green, s * a.blue⟩

/-- Source: `impl Mul<&Color> for &Color` — component-wise (Schur) product (color.rs) -/
def hadamard (a b : Color) : Color := ⟨a.red * b.red, a.green * b.green, a.blue * b.blue⟩

end Color

/-! ## vector3d.rs / point3d.rs -/

/-- Source: `pub struct Vector3D { x, y, z: FLOAT }` (vector3d.rs) -/
structure Vector3D where
  x : FLOAT
  y : FLOAT
  z : FLOAT
deriving DecidableEq, Repr

/-- Source: `pub struct Point3D { x, y, z }` (point3d.rs) -/
structure Point3D where
  x : FLOAT
  y : FLOAT
  z : FLOAT
deriving DecidableEq, Repr

namespace Vector3D

/-- Source: `Vector3D::dot` (vector3d.rs) -/
def dot (a b : Vector3D) : FLOAT := a.x * b.x + a.y * b.y + a.z * b.z

/-- Source: `Vector3D::magnitude` (vector3d.rs) -/
def magnitude (a : Vector3D) : FLOAT := sqrtFloat (a.x * a.x + a.y * a.y + a.z * a.z)

/-- Source: `Vector3D::normalize` (vector3d.rs): divides the vector by its
magnitude in place; modelled functionally. -/
def normalized (a : Vector3D) : Vector3D :=
  let m := a.magnitude
  ⟨a.x / m, a.y / m, a.z / m⟩

/-- Source: `Vector3D::cross` (vector3d.rs) -/
def cross (a b : Vector3D) : Vector3D :=
  ⟨a.y * b.z - a.z * b.y, a.z * b.x - a.x * b.z, a.x * b.y - a.y * b.x⟩

/-- Source: `impl Neg for &Vector3D` (vector3d.rs) -/
def neg (a : Vector3D) : Vector3D := ⟨-a.x, -a.y, -a.z⟩

/-- Source: `impl Sub<&Vector3D> for &Vector3D` (vector3d.rs) -/
def sub (a b : Vector3D) : Vector3D := ⟨a.x - b.x, a.y - b.y, a.z - b.z⟩

/-- Source: `impl Add<&Vector3D> for &Vector3D` (vector3d.rs) -/
def add (a b : Vector3D) : Vector3D := ⟨a.x + b.x, a.y + b.y, a.z + b.z⟩

/-- Source: `impl Mul<FLOAT> for &Vector3D` (vector3d.rs) -/
def scale (a : Vector3D) (s : FLOAT) : Vector3D := ⟨a.x * s, a.y * s, a.z * s⟩

/-- Source: `Vector3D::reflect`: `self - &(2.0 * self.dot(n) * n)` (vector3d.rs) -/
def reflect (a n : Vector3D) : Vector3D := a.sub (n.scale (2 * a.dot n))

end Vector3D

namespace Point3D

/-- Source: `Point3D::ZERO` analogue (`Point3D::new(0,0,0)`). -/
def ZERO : Point3D := ⟨0, 0, 0⟩

/-- Source: `impl Add<&Vector3D> for &Point3D` (point3d.rs) -/
def addV (p : Point3D) (v : Vector3D) : Point3D := ⟨p.x + v.x, p.y + v.y, p.z + v.z⟩

/-- Source: `impl Sub<&Point3D> for &Point3D`: the vector from `q` to `p` (point3d.rs) -/
def subP (p q : Point3D) : Vector3D := ⟨p.x - q.x, p.y - q.y, p.z - q.z⟩

/-- Source: `impl Sub<&Vector3D> for &Point3D` (point3d.rs) -/
def subV (p : Point3D) (v : Vector3D) : Point3D := ⟨p.x - v.x, p.y - v.y, p.z - v.z⟩

end Point3D

/-! ## ray.rs -/

/-- Source: `pub struct Ray { origin: Point3D, direction: Vector3D }` (ray.rs) -/
structure Ray where
  origin : Point3D
  direction : Vector3D
deriving DecidableEq, Repr

/-- Source: `Ray::position(t) = &self.origin + &(t * &self.direction)` (ray.rs) -/
def Ray.position (r : Ray) (t : FLOAT) : Point3D := r.origin.addV (r.direction.scale t)

/-! ## matrix4x4.rs

The source stores a row-major `[FLOAT; 16]` array; modelled by a
`List FLOAT` (constructed with 16 elements by every operation below),
with `at` reading `m[row * 4 + column]`. -/

/-- Source: `struct Matrix2x2 { m: [FLOAT; 4] }` (matrix4x4.rs) -/
structure Matrix2x2 where
  m : List FLOAT
deriving DecidableEq, Repr

/-- Source: `Matrix2x2::determinant = m[0]*m[3] - m[1]*m[2]` (matrix4x4.rs) -/
def Matrix2x2.determinant (a : Matrix2x2) : FLOAT :=
  a.m.getD 0 0 * a.m.getD 3 0 - a.m.getD 1 0 * a.m.getD 2 0

/-- Source: `struct Matrix3x3 { m: [FLOAT; 9] }` (matrix4x4.rs) -/
structure Matrix3x3 where
  m : List FLOAT
deriving DecidableEq, Repr

namespace Matrix3x3

/-- Source: `Matrix3x3::at(row, column) = m[row * 3 + column]` (matrix4x4.rs) -/
def entry (a : Matrix3x3) (row column : Nat) : FLOAT := a.m.getD (row * 3 + column) 0

/-- Source: `Matrix3x3::submatrix`: drop the given row and column, keeping the
remaining entries in row-major order (matrix4x4.rs). -/
def submatrix (a : Matrix3x3) (row column : Nat) : Matrix2x2 :=
  ⟨(List.range 3).flatMap (fun r =>
    if r = row then [] else
      (List.range 3).filterMap (fun c => if c = column then none else some (a.entry r c)))⟩

/-- Source: `Matrix3x3::minor` (matrix4x4.rs) -/
def minor (a : Matrix3x3) (row column : Nat) : FLOAT := (a.submatrix row column).determinant

/-- Source: `Matrix3x3::cofactor` (matrix4x4.rs) -/
def cofactor (a : Matrix3x3) (row column : Nat) : FLOAT :=
  let m := a.minor row column
  if (row + column) % 2 = 0 then m else -m

/-- Source: `Matrix3x3::determinant`: cofactor expansion along row 0 (matrix4x4.rs) -/
def determinant (a : Matrix3x3) : FLOAT :=
  ((List.range 3).map (fun i => a.m.getD i 0 * a.cofactor 0 i)).sum

end Matrix3x3

/-- Source: `pub struct Matrix4x4 { m: [FLOAT; 16] }` (matrix4x4.rs) -/
structure Matrix4x4 where
  m : List FLOAT
deriving DecidableEq, Repr

namespace Matrix4x4

/-- Source: `Matrix4x4::at(row, column) = m[row * 4 + column]` (matrix4x4.rs) -/
def entry (a : Matrix4x4) (row column : Nat) : FLOAT := a.m.getD (row * 4 + column) 0

/-- Source: `Matrix4x4::identity` (matrix4x4.rs) -/
def identity : Matrix4x4 :=
  ⟨[1, 0, 0, 0, 0, 1, 0, 0, 0, 0, 1, 0, 0, 0, 0, 1]⟩

/-- Source: `Matrix4x4::transpose`: `m[c * 4 + r] = self.m[r * 4 + c]` (matrix4x4.rs) -/
def transpose (a : Matrix4x4) : Matrix4x4 :=
  ⟨(List.range 16).map (fun idx => a.entry (idx % 4) (idx / 4))⟩

/-- Source: `Matrix4x4::submatrix` (matrix4x4.rs) -/
def submatrix (a : Matrix4x4) (row column : Nat) : Matrix3x3 :=
  ⟨(List.range 4).flatMap (fun r =>
    if r = row then [] else
      (List.range 4).filterMap (fun c => if c = column then none else some (a.entry r c)))⟩

/-- Source: `Matrix4x4::minor` (matrix4x4.rs) -/
def minor (a : Matrix4x4) (row column : Nat) : FLOAT := (a.submatrix row column).determinant

/-- Source: `Matrix4x4::cofactor` (matrix4x4.rs) -/
def cofactor (a : Matrix4x4) (row column : Nat) : FLOAT :=
  let m := a.minor row column
  if (row + column) % 2 = 0 then m else -m

/-- Source: `Matrix4x4::determinant`: cofactor expansion along row 0 (matrix4x4.rs) -/
def determinant (a : Matrix4x4) : FLOAT :=
  ((List.range 4).map (fun i => a.m.getD i 0 * a.cofactor 0 i)).sum

/-- Source: `Matrix4x4::inverse` (matrix4x4.rs, lines 87–104).  The source panics
when `det == 0.0` (an exact comparison, not `approx_eq`); the panic is
modelled by `none`.  Otherwise it writes `cofactor(row, col) * inv_det`
into cell `m[col * 4 + row]`; the doubly-indexed write loop is modelled
cell by cell (`idx = col * 4 + row`, so `col = idx / 4`, `row = idx % 4`). -/
def inverse (a : Matrix4x4) : Option Matrix4x4 :=
  let det := a.determinant
  if det = 0 then none
  else
    let inv_det := 1 / det
    some ⟨(List.range 16).map (fun idx => a.cofactor (idx % 4) (idx / 4) * inv_det)⟩

/-- Source: `impl PartialEq for Matrix4x4`: fold of `approx_eq` over the zipped
element arrays (matrix4x4.rs). -/
def approxEq (a b : Matrix4x4) : Bool :=
  (a.m.zip b.m).foldl (fun result p => result && approx_eq p.1 p.2) true

/-- Source: `impl Mul<&Matrix4x4> for &Matrix4x4`:
`m[r*4+c] = Σ_k at(r,k) * at(k,c)` (matrix4x4.rs). -/
def mul (a b : Matrix4x4) : Matrix4x4 :=
  ⟨(List.range 16).map (fun idx =>
    a.entry (idx / 4) 0 * b.entry 0 (idx % 4)
      + a.entry (idx / 4) 1 * b.entry 1 (idx % 4)
      + a.entry (idx / 4) 2 * b.entry 2 (idx % 4)
      + a.entry (idx / 4) 3 * b.entry 3 (idx % 4))⟩

/-- Source: `impl Mul<&Point3D> for &Matrix4x4` — homogeneous point transform,
`w = 1` (matrix4x4.rs). -/
def mulPoint (a : Matrix4x4) (p : Point3D) : Point3D :=
  ⟨a.entry 0 0 * p.x + a.entry 0 1 * p.y + a.entry 0 2 * p.z + a.entry 0 3,
   a.entry 1 0 * p.x + a.entry 1 1 * p.y + a.entry 1 2 * p.z + a.entry 1 3,
   a.entry 2 0 * p.x + a.entry 2 1 * p.y + a.entry 2 2 * p.z + a.entry 2 3⟩

/-- Source: `impl Mul<&Vector3D> for &Matrix4x4` — `w = 0`, translation ignored
(matrix4x4.rs). -/
def mulVector (a : Matrix4x4) (v : Vector3D) : Vector3D :=
  ⟨a.entry 0 0 * v.x + a.entry 0 1 * v.y + a.entry 0 2 * v.z,
   a.entry 1 0 * v.x + a.entry 1 1 * v.y + a.entry 1 2 * v.z,
   a.entry 2 0 * v.x + a.entry 2 1 * v.y + a.entry 2 2 * v.z⟩

/-- Source: `impl Mul<&Ray> for &Matrix4x4` (matrix4x4.rs) -/
def mulRay (a : Matrix4x4) (r : Ray) : Ray :=
  ⟨a.mulPoint r.origin, a.mulVector r.direction⟩

end Matrix4x4

/-! ## transform.rs -/

/-- Source: `pub struct Transform { mat: Matrix4x4, inv: Matrix4x4 }` (transform.rs) -/
structure Transform where
  mat : Matrix4x4
  inv : Matrix4x4
deriving DecidableEq, Repr

namespace Transform

/-- Source: `Transform::identity` (transform.rs) -/
def identity : Transform := ⟨Matrix4x4.identity, Matrix4x4.identity⟩

/-- Source: `Transform::translation` (transform.rs): forward and inverse matrices
written out literally. -/
def translation (x y z : FLOAT) : Transform :=
  ⟨⟨[1, 0, 0, x, 0, 1, 0, y, 0, 0, 1, z, 0, 0, 0, 1]⟩,
   ⟨[1, 0, 0, -x, 0, 1, 0, -y, 0, 0, 1, -z, 0, 0, 0, 1]⟩⟩

/-- Source: `impl Mul<&Transform> for &Transform` (transform.rs, lines 264–277):
`mat = self.mat * t.mat`, `inv = t.inv * self.inv`. -/
def mul (a t : Transform) : Transform :=
  ⟨a.mat.mul t.mat, t.inv.mul a.inv⟩

/-- Source: `impl Mul<&Point3D> for &Transform` (transform.rs) -/
def mulPoint (a : Transform) (p : Point3D) : Point3D := a.mat.mulPoint p

/-- Source: `impl Mul<&Ray> for &Transform` (transform.rs) -/
def mulRay (a : Transform) (r : Ray) : Ray := a.mat.mulRay r

/-- Source: `Transform::apply_to_normal`: multiply by the transpose of the stored
inverse, then renormalize (transform.rs). -/
def apply_to_normal (a : Transform) (n : Vector3D) : Vector3D :=
  let m := a.inv
  (Vector3D.mk
    (m.entry 0 0 * n.x + m.entry 1 0 * n.y + m.entry 2 0 * n.z)
    (m.entry 0 1 * n.x + m.entry 1 1 * n.y + m.entry 2 1 * n.z)
    (m.entry 0 2 * n.x + m.entry 1 2 * n.y + m.entry 2 2 * n.z)).normalized

end Transform

/-! ## light.rs / pattern.rs / material.rs -/

/-- Source: `pub struct Light { position: Point3D, intensity: Color }` (light.rs) -/
structure Light where
  position : Point3D
  intensity : Color
deriving DecidableEq, Repr

/-- Source: `pub trait Pattern` (pattern.rs): a trait object owning its own
transform and mapping a pattern-space point to a color.  The dynamic
dispatch of the trait object is modelled by a record of its methods. -/
structure Pattern where
  transform : Transform
  pattern_at : Point3D → Color

/-- Source: `pub struct Material` (material.rs).  The fields `reflective`,
`transparency` and `refractive_index` are read by `world.rs` and
`intersection_state.rs` but missing from the (older) `material.rs` draft
under `src/`; they are modelled from the spec (§3: "reflective [0,1],
transparency [0,1], refractive-index scalars"). -/
structure Material where
  color : Color
  ambient : FLOAT
  diffuse : FLOAT
  specular : FLOAT
  shininess : FLOAT
  pattern : Option Pattern
  reflective : FLOAT
  transparency : FLOAT
  refractive_index : FLOAT

/-- Source: `Material::new` (material.rs, lines 23–34).  Defaults of the three
spec-modelled fields are fixed by the world.rs tests: a default material
is non-reflective and opaque (`the_reflected_color_for_a_non_reflective_material`,
`the_refracted_color_with_an_opeque_surface`), with vacuum refractive index 1. -/
def Material.new : Material :=
  { color := Color.WHITE
    ambient := 1 / 10
    diffuse := 9 / 10
    specular := 9 / 10
    shininess := 200
    pattern := none
    reflective := 0
    transparency := 0
    refractive_index := 1 }

/-! ## The scene graph: node.rs, sphere.rs, plane.rs, group.rs

`Box<dyn Shape>` over the closed set of variants is modelled by a closed
sum type, and `Node` owns one shape plus its transform (node.rs).  Only
the variants the claims touch are embedded (Sphere, Plane, Group); the
remaining variants would only add more leaf cases to `Shape.localIntersect`.

Two pieces of the source cannot be represented directly in a value model
and are modelled as follows:
* the raw parent back-pointer (`parent: Option<NonNull<Node>>`) is used
  only for coordinate-space ascent in `world_to_object`/`normal_to_world`;
  it is `None` for every world-level shape added by `World::add_shape`.
  The embedding keeps the `parent == None` branch of both recursions.
  No theorem below depends on normals of group children.
* `std::ptr::eq` on `&Node` is modelled by comparing the `nid` field,
  which stands for the node's address (distinct allocations carry
  distinct `nid`s). -/

mutual
inductive Shape where
  | sphere (material : Material) : Shape
  | plane (material : Material) : Shape
  | group (children : List Node) : Shape

inductive Node where
  | mk (nid : Nat) (transform : Transform) (shape : Node.ShapeBox) : Node

inductive Node.ShapeBox where
  | box (s : Shape) : Node.ShapeBox
end

namespace Node

/-- The node's address stand-in (models `std::ptr::eq` on `&Node`). -/
def nid : Node → Nat
  | .mk i _ _ => i

/-- Source: `Node::transform` (node.rs) -/
def transform : Node → Transform
  | .mk _ tf _ => tf

/-- The owned `Box<dyn Shape>` (node.rs). -/
def shape : Node → Shape
  | .mk _ _ (.box s) => s

/-- Source: `Node::material` delegates to the shape; the Group variant panics in
the source (group.rs `material()` is `panic!()`), modelled by `none`. -/
def material (n : Node) : Option Material :=
  match n.shape with
  | .sphere m => some m
  | .plane m => some m
  | .group _ => none

end Node

/-- Source: `pub struct Intersection { t: FLOAT, object: &Node }` (intersection.rs),
with the `u`/`v` fields of the later draft (plane.rs constructs them).
`iid` models the address of the `Intersection` value (for `std::ptr::eq`
in `IntersectionState::new`); intersections freshly built by the shape
code carry `iid = 0`, and `World::color_at` re-tags the sorted vector by
position, which is exactly how references into that vector compare. -/
structure Intersection where
  t : FLOAT
  object : Node
  u : FLOAT := 0
  v : FLOAT := 0
  iid : Nat := 0

/-- Source: `hit` (intersection.rs, lines 17–30), written as the loop it is: the
running minimum starts at `std::f32::MAX as FLOAT` and an element replaces
the result only when `0.0 <= x.t && x.t < min_t`. -/
def hitAux : FLOAT → Option Intersection → List Intersection → Option Intersection
  | _, result, [] => result
  | min_t, result, x :: rest =>
    if 0 ≤ x.t ∧ x.t < min_t then hitAux x.t (some x) rest
    else hitAux min_t result rest

/-- Source: `pub fn hit(xs) -> Option<&Intersection>` (intersection.rs) -/
def hit (xs : List Intersection) : Option Intersection :=
  hitAux f32MAX none xs

/-- The comparator of `sort_unstable_by` in group.rs (lines 46–52) and
world.rs (lines 61–67): `Less` iff `i1.t < i2.t`, `Greater` otherwise.
A sort driven by that comparator orders by the is-less predicate
`i1.t < i2.t`; the unstable pdqsort is modelled by insertion sort with
the same predicate (the claims below concern only sortedness of the
result). -/
def insertByT (i : Intersection) : List Intersection → List Intersection
  | [] => [i]
  | j :: rest => if i.t < j.t then i :: j :: rest else j :: insertByT i rest

/-- Sorting model for `xs.sort_unstable_by(...)` in group.rs / world.rs. -/
def sortByT (xs : List Intersection) : List Intersection :=
  xs.foldr insertByT []

/-- Source: `Sphere::local_intersect` (sphere.rs, lines 30–56): quadratic from
`|O + tD|² = 1`. -/
def sphereLocalIntersect (r : Ray) (n : Node) : List Intersection :=
  let o := r.origin
  let d := r.direction
  let sphere_to_ray := o.subP Point3D.ZERO
  let a := d.dot d
  let b := 2 * d.dot sphere_to_ray
  let c := sphere_to_ray.dot sphere_to_ray - 1
  let discriminant := b * b - 4 * a * c
  if discriminant < 0 then []
  else
    let t1 := (-b - sqrtFloat discriminant) / (2 * a)
    let t2 := (-b + sqrtFloat discriminant) / (2 * a)
    [{ t := t1, object := n }, { t := t2, object := n }]

/-- Source: `Plane::local_intersect` (plane.rs, lines 30–46): no hit when
`|direction.y| < EPSILON`, otherwise the single root
`t = -origin.y / direction.y`. -/
def planeLocalIntersect (r : Ray) (n : Node) : List Intersection :=
  if |r.direction.y| < EPSILON then []
  else [{ t := -r.origin.y / r.direction.y, object := n }]

/-- The shape boxed inside a node is structurally smaller than the node
(used as the termination measure of the intersection recursion). -/
theorem Node.sizeOf_shape_lt (n : Node) : sizeOf n.shape < sizeOf n := by
  cases n with
  | mk i tf sb =>
    cases sb with
    | box s => simp [Node.shape]; omega

mutual
/-- Source: `Node::intersect` (node.rs, lines 96–99): transform the ray into local
space by the stored inverse and delegate to the shape, tagging results
with this node. -/
def Node.intersect (n : Node) (r : Ray) : List Intersection :=
  let local_ray := n.transform.inv.mulRay r
  Shape.localIntersect n.shape local_ray n
termination_by sizeOf n
decreasing_by exact Node.sizeOf_shape_lt n

/-- Dispatch of `local_intersect` over the shape variants (sphere.rs,
plane.rs, group.rs).  `Group::local_intersect` (group.rs, lines 35–55)
concatenates every child's intersections and sorts them with the
t-comparator. -/
def Shape.localIntersect : Shape → Ray → Node → List Intersection
  | .sphere _, r, n => sphereLocalIntersect r n
  | .plane _, r, n => planeLocalIntersect r n
  | .group children, r, _ => sortByT (childrenIntersect children r)
termination_by s _ _ => sizeOf s
decreasing_by simp

/-- The accumulation loop of `Group::local_intersect`:
`for child in &self.children { xs.append(&mut child.intersect(r)); }`. -/
def childrenIntersect : List Node → Ray → List Intersection
  | [], _ => []
  | c :: rest, r => Node.intersect c r ++ childrenIntersect rest r
termination_by l _ => sizeOf l
decreasing_by all_goals simp <;> omega
end

/-- Source: `Node::world_to_object` (node.rs, lines 60–67), `parent == None`
branch (see the scene-graph comment above). -/
def Node.world_to_object (n : Node) (p : Point3D) : Point3D :=
  n.transform.inv.mulPoint p

/-- Source: `Node::normal_to_world` (node.rs, lines 73–81), `parent == None`
branch. -/
def Node.normal_to_world (n : Node) (v : Vector3D) : Vector3D :=
  n.transform.apply_to_normal v

/-- Source: `Shape::local_normal_at` dispatch: sphere.rs returns the local point
as a vector, plane.rs the constant (0,1,0); group.rs panics (modelled by
the zero vector, unreachable through the intersection pipeline since
group intersections are always tagged with leaf nodes). -/
def Shape.localNormalAt : Shape → Point3D → Vector3D
  | .sphere _, p => ⟨p.x, p.y, p.z⟩
  | .plane _, _ => ⟨0, 1, 0⟩
  | .group _, _ => ⟨0, 0, 0⟩

/-- Source: `Node::normal_at` (node.rs, lines 105–110). -/
def Node.normal_at (n : Node) (p : Point3D) : Vector3D :=
  let local_point := n.world_to_object p
  let local_normal := Shape.localNormalAt n.shape local_point
  n.normal_to_world local_normal

/-! ## intersection_state.rs -/

/-- Source: `pub struct IntersectionState` (intersection_state.rs, lines 7–32). -/
structure IntersectionState where
  t : FLOAT
  object : Node
  point : Point3D
  over_point : Point3D
  under_point : Point3D
  eyev : Vector3D
  normalv : Vector3D
  reflectv : Vector3D
  n1 : FLOAT
  n2 : FLOAT
  inside : Bool

/-- One iteration of the containers loop of `IntersectionState::new`
(intersection_state.rs, lines 62–92).  State: the `containers` stack and
the current `n1`/`n2`.  `std::ptr::eq(i, hit)` on `&Intersection` is
modelled by comparing `iid`s, `std::ptr::eq(shape, i.object)` on `&Node`
by comparing `nid`s.  The source reads `shape.material().refractive_index`,
which panics when `shape` is a Group; Group-tagged intersections never
occur (a Group delegates intersections to its leaf children), so the
`getD` default is unreachable through the pipeline. -/
def containersStep (hitI : Intersection) (st : List Node × FLOAT × FLOAT)
    (i : Intersection) : List Node × FLOAT × FLOAT :=
  let containers := st.1
  let n1 := st.2.1
  let n2 := st.2.2
  let n1 := if i.iid = hitI.iid then
      match containers.getLast? with
      | some shape => (shape.material.getD Material.new).refractive_index
      | none => 1
    else n1
  let containers :=
    match containers.findIdx? (fun shape => shape.nid == i.object.nid) with
    | some pos => containers.eraseIdx pos
    | none => containers ++ [i.object]
  let n2 := if i.iid = hitI.iid then
      match containers.getLast? with
      | some shape => (shape.material.getD Material.new).refractive_index
      | none => 1
    else n2
  (containers, n1, n2)

/-- Source: `IntersectionState::new` (intersection_state.rs, lines 42–107). -/
def IntersectionState.new (hitI : Intersection) (r : Ray)
    (xs : List Intersection) : IntersectionState :=
  let t := hitI.t
  let object := hitI.object
  let point := r.position hitI.t
  let eyev := r.direction.neg
  let normalv0 := object.normal_at point
  let inside := decide (normalv0.dot eyev < 0)
  let normalv := if normalv0.dot eyev < 0 then normalv0.neg else normalv0
  let over_point := point.addV (normalv.scale EPSILON)
  let under_point := point.subV (normalv.scale EPSILON)
  let reflectv := r.direction.reflect normalv
  let loop := xs.foldl (containersStep hitI) ([], 1, 1)
  { t, object, point, over_point, under_point, eyev, normalv, reflectv,
    n1 := loop.2.1, n2 := loop.2.2, inside }

/-- The tail of `IntersectionState::schlick` after the cosine has been
fixed: `r0 + (1 - r0) * (1 - cos)^5` (intersection_state.rs, lines 123–126). -/
def schlickTail (n1 n2 cos : FLOAT) : FLOAT :=
  let r0 := (n1 - n2) / (n1 + n2)
  let r0 := r0 * r0
  r0 + (1 - r0) * (1 - cos) ^ 5

/-- Source: `IntersectionState::schlick` (intersection_state.rs, lines 110–127). -/
def IntersectionState.schlick (s : IntersectionState) : FLOAT :=
  let cos := s.eyev.dot s.normalv
  if s.n1 > s.n2 then
    let n := s.n1 / s.n2
    let sin2_t := n * n * (1 - cos * cos)
    if sin2_t > 1 then 1
    else schlickTail s.n1 s.n2 (sqrtFloat (1 - sin2_t))
  else schlickTail s.n1 s.n2 cos

/-- Source: `Pattern::pattern_at_shape` (pattern.rs, lines 19–23). -/
def Pattern.pattern_at_shape (pat : Pattern) (node : Node) (p : Point3D) : Color :=
  let local_p := node.transform.inv.mulPoint p
  let pattern_p := pat.transform.inv.mulPoint local_p
  pat.pattern_at pattern_p

/-- Source: `Material::lighting` (material.rs, lines 55–95). -/
def Material.lighting (mat : Material) (object : Node) (light : Light)
    (point : Point3D) (eyev normalv : Vector3D) (in_shadow : Bool) : Color :=
  let color := match mat.pattern with
    | some pattern => pattern.pattern_at_shape object point
    | none => mat.color
  let effective_color := color.hadamard light.intensity
  let lightv := (light.position.subP point).normalized
  let ambient := effective_color.scale mat.ambient
  if in_shadow then ambient
  else
    let light_dot_normal := lightv.dot normalv
    if light_dot_normal < 0 then ambient
    else
      let diffuse := (effective_color.scale mat.diffuse).scale light_dot_normal
      let reflectv := lightv.neg.reflect normalv
      let reflect_dot_eye := reflectv.dot eyev
      let specular :=
        if reflect_dot_eye ≤ 0 then Color.BLACK
        else
          let factor := powfFloat reflect_dot_eye mat.shininess
          Color.scaleLeft (mat.specular * factor) light.intensity
      (ambient.add diffuse).add specular

/-! ## world.rs -/

/-- Source: `pub struct World { lights: Vec<Light>, shapes: Vec<Box<dyn Shape>> }`
(world.rs).  The boxed trait objects are the scene-graph nodes of the
embedding (a `Node` pairs a shape with its transform, which is exactly
what the `shape.rs` draft's trait provides via `transform()` +
`local_intersect`; `Node::intersect` and the trait's default `intersect`
are line-for-line identical). -/
structure World where
  lights : List Light
  shapes : List Node

namespace World

/-- Source: `World::new` (world.rs) -/
def new : World := ⟨[], []⟩

/-- Source: `World::intersect` (world.rs, lines 54–70): concatenate each shape's
intersections in order, then `sort_unstable_by` the t-comparator. -/
def intersect (w : World) (r : Ray) : List Intersection :=
  sortByT (w.shapes.foldl (fun intersections shape =>
    intersections ++ shape.intersect r) [])

/-- Source: `World::is_shadowed` (world.rs, lines 133–146). -/
def is_shadowed (w : World) (p : Point3D) (light : Light) : Bool :=
  let direction := light.position.subP p
  let distance := direction.magnitude
  let direction := direction.normalized
  let r : Ray := ⟨p, direction⟩
  let intersections := w.intersect r
  match hit intersections with
  | some nearest => decide (nearest.t < distance)
  | none => false

end World

/-- Position-tagging of the sorted intersection vector: references into
`xs` handed to `hit`/`IntersectionState::new` by `World::color_at` compare
by address, i.e. by position within that vector; the tag realizes that
comparison for the `iid`-based model of `std::ptr::eq`. -/
def tagByPosition (xs : List Intersection) : List Intersection :=
  xs.enum.map (fun p => { p.2 with iid := p.1 })

mutual
/-- Source: `World::color_at` (world.rs, lines 117–125). -/
def World.color_at (w : World) (r : Ray) (remaining : Nat) : Color :=
  let xs := tagByPosition (w.intersect r)
  match hit xs with
  | some nearest => w.shade_hit (IntersectionState.new nearest r xs) remaining
  | none => Color.BLACK
termination_by 3 * remaining + 2
decreasing_by omega

/-- Source: `World::shade_hit` (world.rs, lines 78–109). -/
def World.shade_hit (w : World) (is : IntersectionState) (remaining : Nat) : Color :=
  let surface := w.lights.foldl (fun (surface : Color) light =>
    let shadowed := w.is_shadowed is.over_point light
    surface.add ((is.object.material.getD Material.new).lighting
      is.object light is.over_point is.eyev is.normalv shadowed)) (Color.mk 0 0 0)
  let reflected := w.reflected_color is remaining
  let refracted := w.refracted_color is remaining
  if 0 < (is.object.material.getD Material.new).reflective ∧
      0 < (is.object.material.getD Material.new).transparency then
    let reflectance := is.schlick
    (surface.add (reflected.scale reflectance)).add
      (refracted.scale (1 - reflectance))
  else
    (surface.add reflected).add refracted
termination_by 3 * remaining + 1
decreasing_by all_goals omega

/-- Source: `World::reflected_color` (world.rs, lines 154–171). -/
def World.reflected_color (w : World) (is : IntersectionState) (remaining : Nat) : Color :=
  if (is.object.material.getD Material.new).reflective = 0 then Color.BLACK
  else if h : remaining ≤ 0 then Color.BLACK
  else
    let reflect_ray : Ray := ⟨is.over_point, is.reflectv⟩
    let color := w.color_at reflect_ray (remaining - 1)
    color.scale (is.object.material.getD Material.new).reflective
termination_by 3 * remaining
decreasing_by omega

/-- Source: `World::refracted_color` (world.rs, lines 179–205). -/
def World.refracted_color (w : World) (is : IntersectionState) (remaining : Nat) : Color :=
  if (is.object.material.getD Material.new).transparency = 0 then Color.BLACK
  else if h : remaining ≤ 0 then Color.BLACK
  else
    let n_ratio := is.n1 / is.n2
    let cos_i := is.eyev.dot is.normalv
    let sin2_t := n_ratio * n_ratio * (1 - cos_i * cos_i)
    if sin2_t > 1 then Color.BLACK
    else
      let cos_t := sqrtFloat (1 - sin2_t)
      let direction := (is.normalv.scale (n_ratio * cos_i - cos_t)).sub
        (is.eyev.scale n_ratio)
      let r : Ray := ⟨is.under_point, direction⟩
      (w.color_at r (remaining - 1)).scale
        (is.object.material.getD Material.new).transparency
termination_by 3 * remaining
decreasing_by omega
end

/-! ## canvas.rs -/

/-- Source: `pub struct Canvas { width, height: usize, colors: Vec<Color> }`
(canvas.rs). -/
structure Canvas where
  width : Nat
  height : Nat
  colors : List Color

namespace Canvas

/-- Source: `Canvas::new`: pre-filled with black (canvas.rs, lines 22–28). -/
def new (width height : Nat) : Canvas :=
  ⟨width, height, List.replicate (width * height) Color.BLACK⟩

/-- Source: `Canvas::color_at` (canvas.rs, lines 45–50): asserts
`x < width && y < height` then reads `colors[width * y + x]`; the
assertion failure (panic) is modelled by `none`. -/
def color_at (c : Canvas) (x y : Nat) : Option Color :=
  if x < c.width ∧ y < c.height then c.colors.get? (c.width * y + x) else none

/-- The write through `Canvas::color_at_mut` (canvas.rs, lines 57–62):
`*image.color_at_mut(x, y) = color` stores at `colors[width * y + x]`. -/
def writeAt (c : Canvas) (x y : Nat) (color : Color) : Canvas :=
  { c with colors := c.colors.set (c.width * y + x) color }

end Canvas

/-! ## camera.rs -/

/-- The recursion budget `render` hands to `World::color_at`.
Modelled from the spec: the `camera.rs` draft under `src/` predates the
`remaining` parameter of `World::color_at` (it calls `w.color_at(&ray)`,
which does not type-check against `world.rs`); the spec fixes the
missing initial budget: "calls `world.color_at(ray, initial_remaining)`
(a fixed default recursion budget, conventionally 5)" (§4.5). -/
def INITIAL_REMAINING : Nat := 5

/-- Source: `pub struct Camera` (camera.rs, lines 6–22). -/
structure Camera where
  hsize : Nat
  vsize : Nat
  field_of_view : FLOAT
  transform : Transform
  half_width : FLOAT
  half_height : FLOAT
  pixel_size : FLOAT

namespace Camera

/-- Source: `Camera::new` (camera.rs, lines 31–57). -/
def new (hsize vsize : Nat) (field_of_view : FLOAT) : Camera :=
  let half_view := tanFloat (field_of_view / 2)
  let aspect := (hsize : FLOAT) / (vsize : FLOAT)
  let half_width := if aspect ≥ 1 then half_view else half_view * aspect
  let half_height := if aspect ≥ 1 then half_view / aspect else half_view
  let pixel_size := half_width * 2 / (hsize : FLOAT)
  { hsize, vsize, field_of_view, transform := Transform.identity,
    half_width, half_height, pixel_size }

/-- Source: `Camera::ray_for_pixel` (camera.rs, lines 74–88). -/
def ray_for_pixel (c : Camera) (px py : Nat) : Ray :=
  let xoffset := ((px : FLOAT) + 1 / 2) * c.pixel_size
  let yoffset := ((py : FLOAT) + 1 / 2) * c.pixel_size
  let world_x := c.half_width - xoffset
  let world_y := c.half_height - yoffset
  let world_view := c.transform.inv
  let pixel := world_view.mulPoint ⟨world_x, world_y, -1⟩
  let origin := world_view.mulPoint ⟨0, 0, 0⟩
  let direction := (pixel.subP origin).normalized
  ⟨origin, direction⟩

/-- The inner loop of `Camera::render` over `x in 0..hsize` for a fixed
row `y` (camera.rs, lines 98–102). -/
def renderRow (c : Camera) (w : World) (y : Nat) (image : Canvas) : Canvas :=
  (List.range c.hsize).foldl (fun image x =>
    image.writeAt x y (w.color_at (c.ray_for_pixel x y) INITIAL_REMAINING)) image

/-- Source: `Camera::render` (camera.rs, lines 94–105): create the canvas, then
for every `y in 0..vsize`, `x in 0..hsize` write
`w.color_at(ray_for_pixel(x, y), INITIAL_REMAINING)` into pixel (x, y)
(on the budget argument see `INITIAL_REMAINING`). -/
def render (c : Camera) (w : World) : Canvas :=
  (List.range c.vsize).foldl (fun image y => c.renderRow w y image)
    (Canvas.new c.hsize c.vsize)

end Camera

/-! ## Constructors of the embedded shape variants -/

/-- Source: `Sphere::new` (sphere.rs, lines 12–19): a sphere carrying `Material::new()`. -/
def Sphere.new : Shape := Shape.sphere Material.new

/-- Source: `Plane::new` (plane.rs, lines 12–19): a plane carrying `Material::new()`. -/
def Plane.new : Shape := Shape.plane Material.new

/-! ## Helper lemmas (shared) -/

/-- Source: `approx_eq` is reflexive. -/
theorem approx_eq_self (x : FLOAT) : approx_eq x x = true := by
  simp [approx_eq, EPSILON]

/-- The `approx_eq` fold of `Matrix4x4::eq` over a list zipped with itself
stays `true`. -/
theorem foldl_approx_zip_self (l : List FLOAT) :
    (l.zip l).foldl (fun result p => result && approx_eq p.1 p.2) true = true := by
  induction l with
  | nil => rfl
  | cons x l ih => simpa [approx_eq_self] using ih

/-- Epsilon-tolerant matrix equality is reflexive. -/
theorem Matrix4x4.approxEq_self (a : Matrix4x4) : a.approxEq a = true := by
  simpa [Matrix4x4.approxEq] using foldl_approx_zip_self a.m

/-! ## Claims -/

/-- Claim **C10.** `Material::new` always returns the same default material:
color white, ambient 0.1, diffuse 0.9, specular 0.9, shininess 200.0 and
no pattern; every freshly constructed shape (Sphere::new, Plane::new)
carries exactly this material. -/
theorem material_new_default :
    Material.new.color = Color.WHITE ∧ Material.new.ambient = 1 / 10 ∧
    Material.new.diffuse = 9 / 10 ∧ Material.new.specular = 9 / 10 ∧
    Material.new.shininess = 200 ∧ Material.new.pattern = none ∧
    (∀ i tf, (Node.mk i tf (.box Sphere.new)).material = some Material.new) ∧
    (∀ i tf, (Node.mk i tf (.box Plane.new)).material = some Material.new) :=
  ⟨rfl, rfl, rfl, rfl, rfl, rfl, fun _ _ => rfl, fun _ _ => rfl⟩

/-- A 4×4 matrix whose determinant is `1e-8`: nonzero, but within
`EPSILON` of zero. -/
def nearSingularM : Matrix4x4 :=
  ⟨[1 / 100000000, 0, 0, 0, 0, 1, 0, 0, 0, 0, 1, 0, 0, 0, 0, 1]⟩

set_option maxHeartbeats 2000000 in
/-- The determinant of `nearSingularM` evaluates to `1e-8`. -/
theorem nearSingularM_det : nearSingularM.determinant = 1 / 100000000 := by
  norm_num [nearSingularM, Matrix4x4.determinant, Matrix4x4.cofactor, Matrix4x4.minor,
    Matrix4x4.submatrix, Matrix4x4.entry, Matrix3x3.determinant, Matrix3x3.cofactor,
    Matrix3x3.minor, Matrix3x3.submatrix, Matrix3x3.entry, Matrix2x2.determinant,
    List.range_succ, List.filterMap_cons, List.filterMap_nil, List.getD,
    List.getElem?_cons_zero, List.getElem?_cons_succ]

/-- Claim **C5 counterexample.** A matrix whose determinant is approximately
zero (`approx_eq(det, 0)` holds) for which `inverse()` does **not** panic
but returns a result matrix: the source guard is the exact comparison
`det == 0.0`, not `approx_eq`. -/
theorem inverse_approx_singular_returns :
    approx_eq nearSingularM.determinant 0 = true ∧
    nearSingularM.inverse.isSome = true := by
  constructor
  · rw [nearSingularM_det]
    simp only [approx_eq, EPSILON, decide_eq_true_eq, sub_zero]
    rw [abs_of_nonneg (by norm_num : (0 : FLOAT) ≤ 1 / 100000000)]
    norm_num
  · simp only [Matrix4x4.inverse, nearSingularM_det]
    norm_num

/-- Claim **C5 (amended).** `inverse()` panics exactly when the determinant is
exactly zero; any nonzero determinant — however close to zero — produces
a result matrix. -/
theorem inverse_none_iff_det_zero (a : Matrix4x4) :
    a.inverse = none ↔ a.determinant = 0 := by
  by_cases h : a.determinant = 0 <;> simp [Matrix4x4.inverse, h]

/-- A singular matrix (two equal rows). -/
def singularM : Matrix4x4 :=
  ⟨[1, 2, 3, 4, 1, 2, 3, 4, 5, 6, 7, 8, 9, 10, 11, 12]⟩

set_option maxHeartbeats 2000000 in
/-- The determinant of `singularM` (two equal rows) evaluates to zero. -/
theorem singularM_det : singularM.determinant = 0 := by
  norm_num [singularM, Matrix4x4.determinant, Matrix4x4.cofactor, Matrix4x4.minor,
    Matrix4x4.submatrix, Matrix4x4.entry, Matrix3x3.determinant, Matrix3x3.cofactor,
    Matrix3x3.minor, Matrix3x3.submatrix, Matrix3x3.entry, Matrix2x2.determinant,
    List.range_succ, List.filterMap_cons, List.filterMap_nil, List.getD,
    List.getElem?_cons_zero, List.getElem?_cons_succ]

/-- Claim **C5 witness**: `inverse` of a concrete singular matrix panics
(returns `none`). -/
theorem inverse_none_iff_det_zero_witness : singularM.inverse = none :=
  (inverse_none_iff_det_zero singularM).mpr singularM_det

/-- Claim **C6.** `Plane::local_intersect`: no hit when `|direction.y| < ε`
(ε = 1e-5); otherwise exactly one intersection with
`t = -origin.y / direction.y`. -/
theorem plane_local_intersect_spec (r : Ray) (n : Node) :
    (|r.direction.y| < EPSILON → planeLocalIntersect r n = []) ∧
    (¬ |r.direction.y| < EPSILON →
      planeLocalIntersect r n =
        [{ t := -r.origin.y / r.direction.y, object := n }]) := by
  constructor <;> intro h <;> simp [planeLocalIntersect, h]

/-- The spec's example ray for C6: origin (0,1,0), direction (0,−1,0). -/
def rayDown : Ray := ⟨⟨0, 1, 0⟩, ⟨0, -1, 0⟩⟩

/-- A world-level plane node. -/
def planeNode : Node := Node.mk 0 Transform.identity (.box Plane.new)

/-- Claim **C6 witness**: the ray from (0,1,0) with direction (0,−1,0) is not
parallel, and hits the plane at `t = -1 / -1` (= 1). -/
theorem plane_local_intersect_spec_witness :
    ¬ |rayDown.direction.y| < EPSILON ∧
    planeLocalIntersect rayDown planeNode =
      [{ t := -rayDown.origin.y / rayDown.direction.y, object := planeNode }] :=
  ⟨by norm_num [rayDown, EPSILON],
   (plane_local_intersect_spec rayDown planeNode).2 (by norm_num [rayDown, EPSILON])⟩

/-- Claim **C7.** Composition of transforms: `A * B` stores forward matrix
`A.mat * B.mat` and inverse `B.inv * A.inv`, so the stored inverse of a
composition equals — in particular within the epsilon-tolerant matrix
equality of `matrix4x4.rs` — the composition of the stored inverses in
reverse order. -/
theorem transform_mul_composition (a b : Transform) :
    (a.mul b).mat = a.mat.mul b.mat ∧ (a.mul b).inv = b.inv.mul a.inv ∧
    Matrix4x4.approxEq (a.mul b).inv (b.inv.mul a.inv) = true :=
  ⟨rfl, rfl, Matrix4x4.approxEq_self _⟩

/-- Claim **C1.** For every world and every intersection state whose material is
fully reflective (respectively fully transparent), `reflected_color`
(respectively `refracted_color`) with `remaining = 0` returns exactly
black, regardless of the scene's contents: the `remaining <= 0` guard is
reached before any recursive call into `color_at`. -/
theorem budget_exhausted_returns_black (w : World) (s : IntersectionState)
    (m : Material) (hm : s.object.material = some m) :
    (m.reflective = 1 → w.reflected_color s 0 = Color.BLACK) ∧
    (m.transparency = 1 → w.refracted_color s 0 = Color.BLACK) := by
  constructor <;> intro h1
  · rw [World.reflected_color]
    simp [hm, h1]
  · rw [World.refracted_color]
    simp [hm, h1]

/-- A unit sphere node whose material is fully reflective and fully
transparent. -/
def glassNode : Node :=
  Node.mk 0 Transform.identity
    (.box (Shape.sphere { Material.new with reflective := 1, transparency := 1 }))

/-- An arbitrary concrete intersection state sitting on `glassNode`. -/
def glassState : IntersectionState :=
  { t := 1, object := glassNode, point := ⟨0, 0, 0⟩, over_point := ⟨0, 0, 0⟩,
    under_point := ⟨0, 0, 0⟩, eyev := ⟨0, 0, -1⟩, normalv := ⟨0, 0, -1⟩,
    reflectv := ⟨0, 0, 1⟩, n1 := 1, n2 := 3 / 2, inside := false }

/-- Claim **C1 witness**: at the concrete state on `glassNode`, both recursive
colors at `remaining = 0` are black. -/
theorem budget_exhausted_returns_black_witness :
    World.new.reflected_color glassState 0 = Color.BLACK ∧
    World.new.refracted_color glassState 0 = Color.BLACK :=
  ⟨(budget_exhausted_returns_black World.new glassState _ rfl).1 rfl,
   (budget_exhausted_returns_black World.new glassState _ rfl).2 rfl⟩

/-- The containers loop of `IntersectionState::new` never writes `n1`/`n2`
when no element of `xs` is pointer-identical to the hit. -/
theorem foldl_containersStep_of_not_mem (hitI : Intersection) :
    ∀ (xs : List Intersection) (containers : List Node) (n1 n2 : FLOAT),
      (∀ i ∈ xs, i.iid ≠ hitI.iid) →
      (xs.foldl (containersStep hitI) (containers, n1, n2)).2 = (n1, n2) := by
  intro xs
  induction xs with
  | nil => intro containers n1 n2 _; rfl
  | cons i rest ih =>
    intro containers n1 n2 h
    have hi : i.iid ≠ hitI.iid := h i (List.mem_cons_self i rest)
    rw [List.foldl_cons]
    have hstep : containersStep hitI (containers, n1, n2) i =
        (((containersStep hitI (containers, n1, n2) i).1), n1, n2) := by
      simp [containersStep, hi]
    rw [hstep]
    exact ih _ n1 n2 (fun j hj => h j (List.mem_cons_of_mem i hj))

/-- Claim **C9.** If the chosen hit is not pointer-identical (`iid`) to any
element of the intersection list handed to `IntersectionState::new` — in
particular when that list is empty — then the constructed refractive
indices are `n1 = n2 = 1.0`. -/
theorem intersection_state_default_refraction (hitI : Intersection) (r : Ray)
    (xs : List Intersection) (h : ∀ i ∈ xs, i.iid ≠ hitI.iid) :
    (IntersectionState.new hitI r xs).n1 = 1 ∧
    (IntersectionState.new hitI r xs).n2 = 1 := by
  have hfold := foldl_containersStep_of_not_mem hitI xs [] 1 1 h
  unfold IntersectionState.new
  constructor <;> simp only [hfold]

/-- A concrete hit used by the C9 witness. -/
def strayHit : Intersection := { t := 1, object := glassNode, iid := 7 }

/-- Claim **C9 witness**: with the empty intersection list, `n1 = n2 = 1`. -/
theorem intersection_state_default_refraction_witness :
    (IntersectionState.new strayHit ⟨⟨0, 0, -5⟩, ⟨0, 0, 1⟩⟩ []).n1 = 1 ∧
    (IntersectionState.new strayHit ⟨⟨0, 0, -5⟩, ⟨0, 0, 1⟩⟩ []).n2 = 1 :=
  intersection_state_default_refraction strayHit ⟨⟨0, 0, -5⟩, ⟨0, 0, 1⟩⟩ []
    (by simp)

/-- If no element of `xs` passes the `0 <= t && t < min_t` test, the
`hit` loop leaves its accumulator untouched. -/
theorem hitAux_of_none_pass :
    ∀ (xs : List Intersection) (minT : FLOAT) (res : Option Intersection),
      (∀ x ∈ xs, ¬(0 ≤ x.t ∧ x.t < minT)) → hitAux minT res xs = res := by
  intro xs
  induction xs with
  | nil => intro minT res _; rfl
  | cons x rest ih =>
    intro minT res h
    rw [hitAux, if_neg (h x (List.mem_cons_self x rest))]
    exact ih minT res (fun y hy => h y (List.mem_cons_of_mem x hy))

/-- The `hit` loop returns the element at the first index whose `t` is
non-negative and minimal, provided that value is below the running
minimum it starts from. -/
theorem hitAux_first_min :
    ∀ (xs : List Intersection) (i : Nat) (hi : i < xs.length)
      (minT : FLOAT) (res : Option Intersection),
      0 ≤ (xs.get ⟨i, hi⟩).t → (xs.get ⟨i, hi⟩).t < minT →
      (∀ x ∈ xs, 0 ≤ x.t → (xs.get ⟨i, hi⟩).t ≤ x.t) →
      (∀ x ∈ xs.take i, 0 ≤ x.t → (xs.get ⟨i, hi⟩).t < x.t) →
      hitAux minT res xs = some (xs.get ⟨i, hi⟩) := by
  intro xs
  induction xs with
  | nil => intro i hi; exact absurd hi (by simp)
  | cons x rest ih =>
    intro i hi minT res h0 hlt hmin hfirst
    cases i with
    | zero =>
      rw [hitAux, if_pos ⟨h0, hlt⟩]
      exact hitAux_of_none_pass rest _ _ (fun y hy hc =>
        absurd hc.2 (not_lt.mpr (hmin y (List.mem_cons_of_mem x hy) hc.1)))
    | succ k =>
      have hk : k < rest.length := Nat.lt_of_succ_lt_succ hi
      by_cases hx : 0 ≤ x.t ∧ x.t < minT
      · rw [hitAux, if_pos hx]
        exact ih k hk x.t (some x) h0
          (hfirst x (by simp [List.take_succ_cons]) hx.1)
          (fun y hy h0y => hmin y (List.mem_cons_of_mem x hy) h0y)
          (fun y hy h0y => hfirst y (by simp [List.take_succ_cons, hy]) h0y)
      · rw [hitAux, if_neg hx]
        exact ih k hk minT res h0 hlt
          (fun y hy h0y => hmin y (List.mem_cons_of_mem x hy) h0y)
          (fun y hy h0y => hfirst y (by simp [List.take_succ_cons, hy]) h0y)

/-- Claim **C8 (amended).** When the element at index `i` has the minimal
non-negative `t` of the whole list, that value is below the `f32::MAX`
sentinel, and every *earlier* element with non-negative `t` is strictly
larger (i.e. `i` is the first index attaining the minimum — in particular
when several intersections tie at the minimal `t`), then `hit` returns
exactly the element at index `i`: the strict `<` against the running
minimum never replaces an earlier equal-`t` candidate. -/
theorem hit_returns_first_minimal (xs : List Intersection) (i : Nat)
    (hi : i < xs.length)
    (h0 : 0 ≤ (xs.get ⟨i, hi⟩).t)
    (hmax : (xs.get ⟨i, hi⟩).t < f32MAX)
    (hmin : ∀ x ∈ xs, 0 ≤ x.t → (xs.get ⟨i, hi⟩).t ≤ x.t)
    (hfirst : ∀ x ∈ xs.take i, 0 ≤ x.t → (xs.get ⟨i, hi⟩).t < x.t) :
    hit xs = some (xs.get ⟨i, hi⟩) :=
  hitAux_first_min xs i hi f32MAX none h0 hmax hmin hfirst

/-- A list with a tie at the minimal non-negative t (t = 2 at indices 1
and 2). -/
def xsTie : List Intersection :=
  [{ t := 5, object := planeNode }, { t := 2, object := planeNode },
   { t := 2, object := planeNode, iid := 2 }]

/-- Claim **C8 witness**: on the tie at `t = 2`, `hit` returns the element at
index 1 — the first of the two tied candidates. -/
theorem hit_returns_first_minimal_witness :
    hit xsTie = some (xsTie.get ⟨1, by norm_num [xsTie]⟩) :=
  hit_returns_first_minimal xsTie 1 (by norm_num [xsTie])
    (by show (0 : FLOAT) ≤ 2; norm_num)
    (by show (2 : FLOAT) < f32MAX; norm_num [f32MAX])
    (by
      intro x hx h0x
      show (2 : FLOAT) ≤ x.t
      rcases (show x = xsTie.get ⟨0, by norm_num [xsTie]⟩ ∨
          x = xsTie.get ⟨1, by norm_num [xsTie]⟩ ∨
          x = xsTie.get ⟨2, by norm_num [xsTie]⟩ by
        simpa [xsTie] using hx) with rfl | rfl | rfl
      · show (2 : FLOAT) ≤ 5; norm_num
      · show (2 : FLOAT) ≤ 2; norm_num
      · show (2 : FLOAT) ≤ 2; norm_num)
    (by
      intro x hx h0x
      show (2 : FLOAT) < x.t
      rcases (show x = xsTie.get ⟨0, by norm_num [xsTie]⟩ by
        simpa [xsTie, List.take] using hx) with rfl
      show (2 : FLOAT) < 5; norm_num)

/-- The t-value `2^128`, at or above the `f32::MAX` sentinel. -/
def bigT : FLOAT := 2 ^ 128

/-- Two intersections tied at the minimal non-negative `t = 2^128`. -/
def xsFar : List Intersection :=
  [{ t := bigT, object := planeNode }, { t := bigT, object := planeNode, iid := 1 }]

/-- Claim **C8 counterexample.** All elements of `xsFar` share the same minimal
non-negative `t`, yet `hit` returns `none` — not the first such element —
because the running minimum starts at `f32::MAX` and `2^128` is not below
it. -/
theorem hit_tie_above_sentinel_none :
    (∀ i ∈ xsFar, 0 ≤ i.t ∧ i.t = bigT) ∧ hit xsFar = none := by
  constructor
  · intro i hi
    rcases (show i = { t := bigT, object := planeNode } ∨
        i = { t := bigT, object := planeNode, iid := 1 } by
      simpa [xsFar] using hi) with rfl | rfl <;>
      exact ⟨by norm_num [bigT], rfl⟩
  · have hc : ¬(0 ≤ bigT ∧ bigT < f32MAX) := by
      rintro ⟨-, hlt⟩
      rw [bigT, f32MAX] at hlt
      norm_num at hlt
    show hitAux f32MAX none xsFar = none
    rw [xsFar]
    rw [hitAux, if_neg hc, hitAux, if_neg hc]
    rfl

/-- Inserting with the strict `t` comparator preserves adjacent-pairs
sortedness by `t`. -/
theorem chain'_insertByT (i : Intersection) :
    ∀ (l : List Intersection),
      List.Chain' (fun a b => a.t ≤ b.t) l →
      List.Chain' (fun a b => a.t ≤ b.t) (insertByT i l) := by
  intro l
  induction l with
  | nil => intro _; simp [insertByT]
  | cons j rest ih =>
    intro h
    rw [insertByT]
    by_cases hij : i.t < j.t
    · rw [if_pos hij]
      exact List.Chain'.cons (le_of_lt hij) h
    · rw [if_neg hij]
      have hins := ih h.tail
      cases rest with
      | nil =>
        simp only [insertByT]
        exact List.chain'_pair.mpr (le_of_not_lt hij)
      | cons k rest2 =>
        rw [insertByT] at hins ⊢
        by_cases hik : i.t < k.t
        · rw [if_pos hik] at hins ⊢
          exact List.Chain'.cons (le_of_not_lt hij) hins
        · rw [if_neg hik] at hins ⊢
          exact List.Chain'.cons (List.chain'_cons.mp h).1 hins

/-- The result of the modelled `sort_unstable_by` is sorted ascending by
`t`: every element's `t` is at most the next element's `t`. -/
theorem chain'_sortByT (l : List Intersection) :
    List.Chain' (fun a b => a.t ≤ b.t) (sortByT l) := by
  induction l with
  | nil => simp [sortByT]
  | cons x rest ih => exact chain'_insertByT x _ ih

/-- Claim **C3.** For every ray, the intersection list returned by
`Group::local_intersect` (the sorted concatenation of all children's
intersections) and the list returned by `World::intersect` are sorted in
ascending order of `t`: every element's `t` is less than or equal to the
next element's `t`. -/
theorem group_and_world_intersections_sorted :
    (∀ (children : List Node) (r : Ray) (n : Node),
      List.Chain' (fun a b => a.t ≤ b.t)
        (Shape.localIntersect (Shape.group children) r n)) ∧
    (∀ (w : World) (r : Ray),
      List.Chain' (fun a b => a.t ≤ b.t) (w.intersect r)) := by
  constructor
  · intro children r n
    rw [Shape.localIntersect]
    exact chain'_sortByT _
  · intro w r
    rw [World.intersect]
    exact chain'_sortByT _

/-- Identity matrix transforms leave points untouched. -/
theorem identity_mulPoint (p : Point3D) : Matrix4x4.identity.mulPoint p = p := by
  simp [Matrix4x4.identity, Matrix4x4.mulPoint, Matrix4x4.entry, List.getD,
    List.getElem?_cons_zero, List.getElem?_cons_succ]

/-- Identity matrix transforms leave vectors untouched. -/
theorem identity_mulVector (v : Vector3D) : Matrix4x4.identity.mulVector v = v := by
  simp [Matrix4x4.identity, Matrix4x4.mulVector, Matrix4x4.entry, List.getD,
    List.getElem?_cons_zero, List.getElem?_cons_succ]

/-- Identity matrix transforms leave rays untouched. -/
theorem identity_mulRay (r : Ray) : Matrix4x4.identity.mulRay r = r := by
  simp [Matrix4x4.mulRay, identity_mulPoint, identity_mulVector]

/-- A world holding one world-level plane (identity transform) and no
lights. -/
def farWorld : World := ⟨[], [planeNode]⟩

/-- A ray that meets that plane at `t = 2^128`. -/
def farRay : Ray := ⟨⟨0, bigT, 0⟩, ⟨0, -1, 0⟩⟩

/-- The world intersection list of `farRay`: exactly one intersection, at
`t = 2^128 ≥ 0`. -/
theorem farWorld_intersect :
    farWorld.intersect farRay = [{ t := bigT, object := planeNode }] := by
  rw [World.intersect]
  show sortByT ([] ++ planeNode.intersect farRay) = _
  rw [Node.intersect]
  show sortByT (Shape.localIntersect (Shape.plane Material.new)
    (Transform.identity.inv.mulRay farRay) planeNode) = _
  rw [show Transform.identity.inv.mulRay farRay = farRay from identity_mulRay farRay]
  rw [Shape.localIntersect]
  rw [planeLocalIntersect, if_neg (by norm_num [farRay, EPSILON])]
  show sortByT [{ t := -bigT / -1, object := planeNode }] = _
  rw [show -bigT / -1 = bigT by rw [neg_div_neg_eq, div_one]]
  rfl

set_option maxRecDepth 4000 in
/-- Claim **C2 failing input.** `color_at` does *not* select the intersection
with the smallest non-negative `t` among all intersections: `hit`
initializes its running minimum to `f32::MAX as FLOAT`, so an
intersection at `t = 2^128` (non-negative, and the only one) is never
selected and `color_at` returns black although a non-negative hit exists
(contradicting `hit`'s own doc comment, which promises the nearest
intersection ahead of the ray origin whenever one exists). -/
theorem color_at_misses_far_hit :
    (∃ i ∈ farWorld.intersect farRay, 0 ≤ i.t) ∧
    farWorld.color_at farRay 5 = Color.BLACK := by
  have hc : ¬(0 ≤ bigT ∧ bigT < f32MAX) := by
    rintro ⟨-, hlt⟩
    rw [bigT, f32MAX] at hlt
    norm_num at hlt
  constructor
  · exact ⟨{ t := bigT, object := planeNode },
      by rw [farWorld_intersect]; exact List.mem_singleton_self _,
      by norm_num [bigT]⟩
  · have hhit : hit (tagByPosition [{ t := bigT, object := planeNode }]) = none := by
      rw [show tagByPosition [{ t := bigT, object := planeNode }] =
          [{ t := bigT, object := planeNode }] from rfl]
      rw [hit, hitAux, if_neg hc]
      rfl
    rw [World.color_at, farWorld_intersect]
    simp only [hhit]

/-- Source: `writeAt` preserves the canvas dimensions and buffer length. -/
theorem Canvas.writeAt_dims (c : Canvas) (x y : Nat) (col : Color) :
    (c.writeAt x y col).width = c.width ∧ (c.writeAt x y col).height = c.height ∧
    (c.writeAt x y col).colors.length = c.colors.length :=
  ⟨rfl, rfl, List.length_set c.colors _ _⟩

/-- The pixel-write loop of one render row preserves the canvas
dimensions and buffer length. -/
theorem foldWrite_dims (c : Camera) (w : World) (y : Nat) :
    ∀ (l : List Nat) (img : Canvas),
      ((l.foldl (fun image x =>
          image.writeAt x y (w.color_at (c.ray_for_pixel x y) INITIAL_REMAINING)) img).width
            = img.width ∧
        (l.foldl (fun image x =>
          image.writeAt x y (w.color_at (c.ray_for_pixel x y) INITIAL_REMAINING)) img).height
            = img.height ∧
        (l.foldl (fun image x =>
          image.writeAt x y (w.color_at (c.ray_for_pixel x y) INITIAL_REMAINING)) img).colors.length
            = img.colors.length) := by
  intro l
  induction l with
  | nil => intro img; exact ⟨rfl, rfl, rfl⟩
  | cons a l ih =>
    intro img
    rw [List.foldl_cons]
    obtain ⟨h1, h2, h3⟩ := ih (img.writeAt a y (w.color_at (c.ray_for_pixel a y) INITIAL_REMAINING))
    obtain ⟨g1, g2, g3⟩ := Canvas.writeAt_dims img a y (w.color_at (c.ray_for_pixel a y) INITIAL_REMAINING)
    exact ⟨h1.trans g1, h2.trans g2, h3.trans g3⟩

/-- Writes of one render row do not touch an index none of its pixels
maps to. -/
theorem foldWrite_get_of_ne (c : Camera) (w : World) (y : Nat) :
    ∀ (l : List Nat) (img : Canvas) (idx : Nat),
      (∀ x ∈ l, img.width * y + x ≠ idx) →
      (l.foldl (fun image x =>
          image.writeAt x y (w.color_at (c.ray_for_pixel x y) INITIAL_REMAINING)) img).colors.get? idx
        = img.colors.get? idx := by
  intro l
  induction l with
  | nil => intro img idx _; rfl
  | cons a l ih =>
    intro img idx h
    rw [List.foldl_cons]
    have hwidth : (img.writeAt a y (w.color_at (c.ray_for_pixel a y) INITIAL_REMAINING)).width
        = img.width := rfl
    rw [ih _ idx (by rw [hwidth]; exact fun x hx => h x (List.mem_cons_of_mem a hx))]
    show (img.colors.set (img.width * y + a) _).get? idx = img.colors.get? idx
    rw [List.get?_eq_getElem?, List.get?_eq_getElem?,
      List.getElem?_set_ne (h a (List.mem_cons_self a l))]

/-- After one render row runs over a duplicate-free pixel list containing
`tx`, the buffer holds the row's color for `tx` at its index. -/
theorem foldWrite_get_of_mem (c : Camera) (w : World) (y : Nat) :
    ∀ (l : List Nat) (img : Canvas) (tx : Nat), l.Nodup → tx ∈ l →
      img.width * y + tx < img.colors.length →
      (l.foldl (fun image x =>
          image.writeAt x y (w.color_at (c.ray_for_pixel x y) INITIAL_REMAINING)) img).colors.get?
            (img.width * y + tx)
        = some (w.color_at (c.ray_for_pixel tx y) INITIAL_REMAINING) := by
  intro l
  induction l with
  | nil => intro img tx _ htx; exact absurd htx (List.not_mem_nil tx)
  | cons a l ih =>
    intro img tx hnd htx hbound
    rw [List.foldl_cons]
    have hwidth : (img.writeAt a y (w.color_at (c.ray_for_pixel a y) INITIAL_REMAINING)).width
        = img.width := rfl
    have hlen : (img.writeAt a y (w.color_at (c.ray_for_pixel a y) INITIAL_REMAINING)).colors.length
        = img.colors.length := List.length_set _ _ _
    rcases List.mem_cons.mp htx with rfl | hmem
    · -- the head write is the target pixel; the remaining writes miss it
      rw [foldWrite_get_of_ne c w y l _ (img.width * y + tx) (by
        rw [hwidth]
        intro x hx heq
        exact (List.nodup_cons.mp hnd).1 (by
          have : x = tx := by omega
          rw [← this]; exact hx))]
      show (img.colors.set (img.width * y + tx) _).get? (img.width * y + tx) = _
      rw [List.get?_eq_getElem?, List.getElem?_set_self hbound]
    · -- the target pixel is written later in the row
      have := ih (img.writeAt a y (w.color_at (c.ray_for_pixel a y) INITIAL_REMAINING)) tx
        (List.nodup_cons.mp hnd).2 hmem (by rw [hwidth, hlen]; exact hbound)
      rw [hwidth] at this
      exact this

/-- Row-major index arithmetic: a pixel index determines its row and
column when both columns are in range. -/
theorem rowIdx_inj {W a x ty tx : Nat} (hx : x < W) (htx : tx < W)
    (h : W * a + x = W * ty + tx) : a = ty ∧ x = tx := by
  have hW : 0 < W := by omega
  have h1 : (W * a + x) / W = a := by
    rw [Nat.mul_add_div hW, Nat.div_eq_of_lt hx, Nat.add_zero]
  have h2 : (W * ty + tx) / W = ty := by
    rw [Nat.mul_add_div hW, Nat.div_eq_of_lt htx, Nat.add_zero]
  have ha : a = ty := by rw [← h1, h, h2]
  refine ⟨ha, ?_⟩
  rw [ha] at h
  exact Nat.add_left_cancel h

/-- The row loop of `render` preserves the canvas dimensions and buffer
length. -/
theorem foldRows_dims (c : Camera) (w : World) :
    ∀ (ls : List Nat) (img : Canvas),
      ((ls.foldl (fun image yy => c.renderRow w yy image) img).width = img.width ∧
        (ls.foldl (fun image yy => c.renderRow w yy image) img).height = img.height ∧
        (ls.foldl (fun image yy => c.renderRow w yy image) img).colors.length
          = img.colors.length) := by
  intro ls
  induction ls with
  | nil => intro img; exact ⟨rfl, rfl, rfl⟩
  | cons a ls ih =>
    intro img
    rw [List.foldl_cons]
    obtain ⟨h1, h2, h3⟩ := ih (c.renderRow w a img)
    obtain ⟨g1, g2, g3⟩ := foldWrite_dims c w a (List.range c.hsize) img
    exact ⟨h1.trans g1, h2.trans g2, h3.trans g3⟩

/-- Rows other than the target row never touch the target pixel's index. -/
theorem foldRows_get_of_ne (c : Camera) (w : World) :
    ∀ (ls : List Nat) (img : Canvas) (ty tx : Nat),
      img.width = c.hsize → tx < c.hsize → (∀ yy ∈ ls, yy ≠ ty) →
      (ls.foldl (fun image yy => c.renderRow w yy image) img).colors.get?
          (img.width * ty + tx)
        = img.colors.get? (img.width * ty + tx) := by
  intro ls
  induction ls with
  | nil => intro img ty tx _ _ _; rfl
  | cons a ls ih =>
    intro img ty tx hW htx h
    rw [List.foldl_cons]
    have hW2 : (c.renderRow w a img).width = img.width :=
      (foldWrite_dims c w a (List.range c.hsize) img).1
    rw [show img.width * ty + tx = (c.renderRow w a img).width * ty + tx by rw [hW2]]
    rw [ih _ ty tx (hW2.trans hW) htx (fun yy hyy => h yy (List.mem_cons_of_mem a hyy))]
    rw [hW2]
    exact foldWrite_get_of_ne c w a (List.range c.hsize) img (img.width * ty + tx)
      (by
        intro x hxr heq
        have hxlt : x < c.hsize := List.mem_range.mp hxr
        exact h a (List.mem_cons_self a ls)
          (rowIdx_inj (hW ▸ hxlt) (hW ▸ htx) heq).1)

/-- After the row loop has processed a duplicate-free list of rows
containing the target row, the target pixel holds its rendered color. -/
theorem foldRows_get_of_mem (c : Camera) (w : World) :
    ∀ (ls : List Nat) (img : Canvas) (ty tx : Nat),
      img.width = c.hsize → ls.Nodup → ty ∈ ls → tx < c.hsize →
      img.width * ty + tx < img.colors.length →
      (ls.foldl (fun image yy => c.renderRow w yy image) img).colors.get?
          (img.width * ty + tx)
        = some (w.color_at (c.ray_for_pixel tx ty) INITIAL_REMAINING) := by
  intro ls
  induction ls with
  | nil => intro img ty tx _ _ hty; exact absurd hty (List.not_mem_nil ty)
  | cons a ls ih =>
    intro img ty tx hW hnd hty htx hbound
    rw [List.foldl_cons]
    have hW2 : (c.renderRow w a img).width = img.width :=
      (foldWrite_dims c w a (List.range c.hsize) img).1
    have hlen2 : (c.renderRow w a img).colors.length = img.colors.length :=
      (foldWrite_dims c w a (List.range c.hsize) img).2.2
    rcases List.mem_cons.mp hty with rfl | hmem
    · -- the head row is the target row; later rows never touch the pixel
      rw [show img.width * ty + tx = (c.renderRow w ty img).width * ty + tx by rw [hW2]]
      rw [foldRows_get_of_ne c w ls _ ty tx (hW2.trans hW) htx
        (fun yy hyy heq => (List.nodup_cons.mp hnd).1 (heq ▸ hyy))]
      rw [hW2]
      exact foldWrite_get_of_mem c w ty (List.range c.hsize) img tx
        (List.nodup_range c.hsize) (List.mem_range.mpr (hW ▸ htx)) hbound
    · -- the target row comes later
      have := ih (c.renderRow w a img) ty tx (hW2.trans hW)
        (List.nodup_cons.mp hnd).2 hmem htx (by rw [hW2, hlen2]; exact hbound)
      rw [hW2] at this
      exact this

/-- Claim **C4.** `Camera::render` produces an `hsize × vsize` canvas and, for
every pixel `(x, y)` of it, generates that pixel's ray with
`ray_for_pixel`, calls `world.color_at` with the fixed default recursion
budget 5, and stores the resulting color at that pixel of the canvas. -/
theorem camera_render_writes_each_pixel (c : Camera) (w : World) (x y : Nat)
    (hx : x < c.hsize) (hy : y < c.vsize) :
    (c.render w).width = c.hsize ∧ (c.render w).height = c.vsize ∧
    (c.render w).color_at x y = some (w.color_at (c.ray_for_pixel x y) 5) := by
  have hdims := foldRows_dims c w (List.range c.vsize) (Canvas.new c.hsize c.vsize)
  have hW : (c.render w).width = c.hsize := hdims.1
  have hH : (c.render w).height = c.vsize := hdims.2.1
  refine ⟨hW, hH, ?_⟩
  rw [Canvas.color_at, if_pos ⟨hW ▸ hx, hH ▸ hy⟩, hW]
  have hbound : (Canvas.new c.hsize c.vsize).width * y + x
      < (Canvas.new c.hsize c.vsize).colors.length := by
    show c.hsize * y + x < (List.replicate (c.hsize * c.vsize) Color.BLACK).length
    rw [List.length_replicate]
    calc c.hsize * y + x < c.hsize * y + c.hsize := by omega
      _ = c.hsize * (y + 1) := by ring
      _ ≤ c.hsize * c.vsize := Nat.mul_le_mul_left c.hsize (Nat.succ_le_of_lt hy)
  exact foldRows_get_of_mem c w (List.range c.vsize) (Canvas.new c.hsize c.vsize)
    y x rfl (List.nodup_range c.vsize) (List.mem_range.mpr hy) hx hbound

/-- A 1×1 camera with a small field of view. -/
def tinyCamera : Camera := Camera.new 1 1 (1 / 2)

/-- Claim **C4 witness**: for the 1×1 camera over the empty world, the rendered
canvas holds `color_at(ray_for_pixel(0,0), 5)` at pixel (0,0). -/
theorem camera_render_writes_each_pixel_witness :
    (tinyCamera.render World.new).width = tinyCamera.hsize ∧
    (tinyCamera.render World.new).height = tinyCamera.vsize ∧
    (tinyCamera.render World.new).color_at 0 0 =
      some (World.new.color_at (tinyCamera.ray_for_pixel 0 0) 5) :=
  camera_render_writes_each_pixel tinyCamera World.new 0 0
    (by norm_num [tinyCamera, Camera.new]) (by norm_num [tinyCamera, Camera.new])
